import Mathlib

/-!
Verification of the ECS task-definition reconciliation module
(`library/aws_ecs_taskdefinition.py`).

The module's records (container specs, volume specs, the described task
definition) are Python dicts with string keys and opaque values; they are
embedded as ordered association lists `List (String × Value)` with `Value`
opaque (a string).  The engine (`main`) is embedded as a pure function from
the module parameters, the check-mode flag and the raw response of the one
`describe_task_definition` call to a trace of remote calls plus an outcome
(`exit_json` / `fail_json`).
-/

namespace EcsTaskDef

/-- Opaque field values of a container/volume record. -/
abbrev Value := String

/-- A Python dict record: ordered field/value pairs (field names unique in
any dict the runtime can build). -/
abbrev Record := List (String × Value)

/-- `r[f]` / `r.get(f)`: the value of field `f`, if present
(first occurrence). -/
def getField (r : Record) (f : String) : Option Value :=
  (r.find? (fun p => p.1 == f)).map (fun p => p.2)

/-- `f in r`. -/
def hasField (r : Record) (f : String) : Bool :=
  (getField r f).isSome

/-- `dict(item, **update)`: the fields of `item` in order, with values
overridden by `update` where `update` has the field, followed by the fields
of `update` that `item` lacks. -/
def dictUpdate (item update : Record) : Record :=
  item.map (fun p => (p.1, (getField update p.1).getD p.2))
    ++ update.filter (fun p => (getField item p.1).isNone)

/-- `next((u for u in pool if u[key] == r[key]), None)`: the first record of
`pool` whose `key` field equals the `key` field of `r`. -/
def findByKey (pool : List Record) (key : String) (r : Record) : Option Record :=
  pool.find? (fun x => getField x key == getField r key)

/-- Python truthiness of the result of such a `next(...)` call: `None` and
the empty dict are falsy. -/
def pyTruthyDict (x : Option Record) : Bool :=
  match x with
  | some r => !r.isEmpty
  | none => false

/-- The body of the first loop of `merge_lists`: overlay `item` with the
first matching record of `updates` (`if update: ... else: ...`). -/
def mergeItem (updates : List Record) (key : String) (item : Record) : Record :=
  match findByKey updates key item with
  | some u => if u.isEmpty then item else dictUpdate item u
  | none => item

/-- The second loop of `merge_lists`: the records of `updates` with no
matching record in `items` (`if not existing: result.append(update)`). -/
def newRecords (items updates : List Record) (key : String) : List Record :=
  updates.filter (fun u => !pyTruthyDict (findByKey items key u))

/-- `merge_lists(items, updates, key)` from the source: update existing
items, then append the updates records not matching any item. -/
def merge_lists (items updates : List Record) (key : String) : List Record :=
  items.map (mergeItem updates key) ++ newRecords items updates key

/-! ### The external collaborator and the lookup

`EcsTaskManager.describe_task` calls `describe_task_definition` and returns
its `taskDefinition` payload, swallowing every `botocore` `ClientError`
(whatever its error code) into `None`. -/

/-- A `botocore.exceptions.ClientError`: the service refused the call, with
some error code (`ClusterNotFoundException`, `AccessDeniedException`,
`ThrottlingException`, `ValidationException`, ...). -/
structure ClientError where
  code : String
deriving DecidableEq, Repr

/-- The `taskDefinition` dict of a successful describe response.  The fields
the module reads are `family`, `status`, `containerDefinitions` and
`volumes`; `status` is read only after an explicit membership test, so it is
kept optional. -/
structure TaskDef where
  family : String
  status : Option String
  containerDefinitions : List Record
  volumes : List Record
deriving DecidableEq, Repr

/-- `EcsTaskManager.describe_task`: unwrap the response, `None` on any
`ClientError`. -/
def describe_task (resp : Except ClientError TaskDef) : Option TaskDef :=
  match resp with
  | Except.ok d => some d
  | Except.error _ => none

/-! ### Module parameters and identifier resolution -/

/-- `module.params`: every declared argument, `none` when the caller
omitted it. -/
structure Params where
  state : String
  arn : Option String
  family : Option String
  revision : Option Int
  containers : Option (List Record)
  volumes : Option (List Record)
deriving DecidableEq, Repr

/-- The keys present in the `module.params` dict.  `AnsibleModule` populates
every argument declared in the argument spec with a value (`None` when the
caller supplied nothing), so all six keys are always present. -/
def paramsKeys : List String :=
  ["state", "arn", "family", "revision", "containers", "volumes"]

/-- Python truthiness of an optional string: `None` and `""` are falsy. -/
def pyTruthyStr (x : Option String) : Bool :=
  match x with
  | some s => !(s == "")
  | none => false

/-- Python `a or b` on optional strings. -/
def pyOrStr (a b : Option String) : Option String :=
  if pyTruthyStr a then a else b

/-- Python `a or b` where `a` is a list and `b` an optional list. -/
def pyOrList (a : List Record) (b : Option (List Record)) : Option (List Record) :=
  if a.isEmpty then b else some a

/-- `if module.params.get('revision'): task_to_describe += ':' + str(...)`
(an integer is truthy exactly when it is nonzero). -/
def appendRevision (t : Option String) (r : Option Int) : Option String :=
  match r with
  | some n => if n = 0 then t else t.map (fun s => s ++ ":" ++ toString n)
  | none => t

/-- The `task_to_describe` resolution at the top of `main`:
`Except.error msg` models `module.fail_json(msg=...)` before the lookup. -/
def resolveTask (p : Params) : Except String (Option String) :=
  if p.state = "absent" then
    if ("arn" ∈ paramsKeys) ∧ p.arn.isSome then
      Except.ok p.arn
    else if ("family" ∈ paramsKeys) ∧ p.family.isSome
        ∧ ("revision" ∈ paramsKeys) ∧ p.revision.isSome then
      Except.ok (some (p.family.getD "" ++ ":" ++ toString (p.revision.getD 0)))
    else
      Except.error "To use task definitions, an arn or family and revision must be specified"
  else if p.state = "present" then
    if ¬ ("family" ∈ paramsKeys) then
      Except.error "To use task definitions, a family must be specified"
    else if ¬ ("containers" ∈ paramsKeys) then
      Except.error "To use task definitions, a list of containers must be specified"
    else
      Except.ok p.family
  else if p.state = "update" then
    let t := pyOrStr p.arn p.family
    if ¬ pyTruthyStr t then
      Except.error "To update a task definition, an arn or family must be specified"
    else
      Except.ok (appendRevision t p.revision)
  else
    Except.ok none

/-! ### The decision phase -/

/-- A mutating or lookup call issued to the remote collaborator. -/
inductive Call where
  | describe (taskName : Option String)
  | register (family : Option String) (containers : Option (List Record))
      (volumes : Option (List Record))
  | deregister (taskArn : Option String)
deriving DecidableEq, Repr

/-- What `results['taskdefinition']` holds on exit. -/
inductive ReportedDef where
  | noDef
  | existing (d : TaskDef)
  | fromRegister (family : Option String) (containers : Option (List Record))
      (volumes : Option (List Record))
deriving DecidableEq, Repr

/-- How the invocation ends: `module.fail_json` or `module.exit_json`. -/
inductive Outcome where
  | failJson (msg : String)
  | exitJson (changed : Bool) (taskdefinition : ReportedDef)
deriving DecidableEq, Repr

/-- The observable behaviour of one invocation: the remote calls issued, in
order, and the terminal outcome. -/
structure RunResult where
  calls : List Call
  outcome : Outcome
deriving DecidableEq, Repr

/-- The register leg of the `present` branch (the `else` of the ACTIVE
test): skipped under check mode, otherwise registers the caller-supplied
containers verbatim and the caller-supplied volumes with `None` mapped to
`[]`. -/
def presentRegister (p : Params) (checkMode : Bool) : RunResult :=
  if checkMode then
    RunResult.mk [] (Outcome.exitJson true ReportedDef.noDef)
  else
    let volumes : List Record :=
      if "volumes" ∈ paramsKeys then p.volumes.getD [] else []
    RunResult.mk
      [Call.register p.family p.containers (some volumes)]
      (Outcome.exitJson true
        (ReportedDef.fromRegister p.family p.containers (some volumes)))

/-- The decision phase of `main`, given the resolved `task_to_describe` and
the `existing` lookup result.  Returns only the mutating calls; `runMain`
prepends the describe call. -/
def runWith (p : Params) (checkMode : Bool) (task : Option String)
    (existing : Option TaskDef) : RunResult :=
  if p.state = "present" then
    match existing with
    | some e =>
      if e.status = some "ACTIVE" then
        RunResult.mk [] (Outcome.exitJson false (ReportedDef.existing e))
      else
        presentRegister p checkMode
    | none => presentRegister p checkMode
  else if p.state = "update" then
    if checkMode then
      RunResult.mk [] (Outcome.exitJson true ReportedDef.noDef)
    else
      match existing with
      | none =>
        RunResult.mk []
          (Outcome.failJson "No existing task definition to update could be found")
      | some e =>
        let updatedContainers : List Record :=
          match p.containers with
          | some cs =>
            if cs.isEmpty then [] else merge_lists e.containerDefinitions cs "name"
          | none => []
        let updatedVolumes : List Record :=
          match p.volumes with
          | some vs =>
            if vs.isEmpty then [] else merge_lists e.volumes vs "name"
          | none => []
        let fam := pyOrStr p.family (some e.family)
        let co := pyOrList updatedContainers (some e.containerDefinitions)
        let vo := pyOrList updatedVolumes (some e.volumes)
        RunResult.mk [Call.register fam co vo]
          (Outcome.exitJson true (ReportedDef.fromRegister fam co vo))
  else if p.state = "absent" then
    match existing with
    | none => RunResult.mk [] (Outcome.exitJson false ReportedDef.noDef)
    | some e =>
      if e.status = some "INACTIVE" then
        RunResult.mk [] (Outcome.exitJson false (ReportedDef.existing e))
      else if checkMode then
        RunResult.mk [] (Outcome.exitJson true (ReportedDef.existing e))
      else
        RunResult.mk [Call.deregister task]
          (Outcome.exitJson true (ReportedDef.existing e))
  else
    RunResult.mk [] (Outcome.exitJson false ReportedDef.noDef)

/-- One full invocation of `main`: resolve `task_to_describe`, perform the
lookup (whose raw collaborator response is `resp`), then decide. -/
def runMain (p : Params) (checkMode : Bool)
    (resp : Except ClientError TaskDef) : RunResult :=
  match resolveTask p with
  | Except.error msg => RunResult.mk [] (Outcome.failJson msg)
  | Except.ok task =>
    let existing := describe_task resp
    let r := runWith p checkMode task existing
    RunResult.mk (Call.describe task :: r.calls) r.outcome

/-! ### Basic lemmas about records and the merge -/

theorem getField_nil (f : String) : getField [] f = none := rfl

theorem dictUpdate_nil_right (item : Record) : dictUpdate item [] = item := by
  simp [dictUpdate, getField]

/-- Finding in a filtered pool agrees with finding in the pool when the
filter keeps everything the search predicate accepts. -/
theorem find?_filter_of_imp {α : Type} (p q : α → Bool) (l : List α)
    (h : ∀ x, p x = true → q x = true) :
    (l.filter q).find? p = l.find? p := by
  induction l with
  | nil => rfl
  | cons a t ih =>
    by_cases hpa : p a = true
    · have hqa := h a hpa
      simp [List.filter_cons, hqa, List.find?_cons, hpa, ih]
    · have hpa' : p a = false := by
        cases hp : p a
        · rfl
        · exact absurd hp hpa
      by_cases hqa : q a = true
      · simp [List.filter_cons, hqa, List.find?_cons, hpa', ih]
      · have hqa' : q a = false := by
          cases hq : q a
          · rfl
          · exact absurd hq hqa
        simp [List.filter_cons, hqa', List.find?_cons, hpa', ih]

/-- `getField` distributes over list append. -/
theorem getField_append (l₁ l₂ : Record) (f : String) :
    getField (l₁ ++ l₂) f = (getField l₁ f).or (getField l₂ f) := by
  unfold getField
  rw [List.find?_append, Option.map_or']

/-- `getField` ignores a filter that keeps every pair whose first component
is the sought field. -/
theorem getField_filter (Q : String × Value → Bool) (l : Record) (f : String)
    (h : ∀ x, (x.1 == f) = true → Q x = true) :
    getField (l.filter Q) f = getField l f := by
  unfold getField
  rw [find?_filter_of_imp _ _ _ h]

/-- `getField` on the overridden copy of `item` made by `dictUpdate`. -/
theorem getField_map_override (u item : Record) (f : String) :
    getField (item.map (fun p => (p.1, (getField u p.1).getD p.2))) f
      = (item.find? (fun p => p.1 == f)).map
          (fun p => (getField u p.1).getD p.2) := by
  unfold getField
  rw [List.find?_map, Option.map_map]
  rfl

/-- Field lookup in `dict(item, **update)`: fields of `update` win, fields
only in `item` are preserved. -/
theorem getField_dictUpdate (item update : Record) (f : String) :
    getField (dictUpdate item update) f
      = (getField update f).or (getField item f) := by
  unfold dictUpdate
  rw [getField_append, getField_map_override]
  cases hitem : item.find? (fun p => p.1 == f) with
  | some p =>
    have hp : p.1 = f := by
      simpa using List.find?_some hitem
    have hitemf : getField item f = some p.2 := by
      unfold getField
      rw [hitem]
      rfl
    rw [hitemf]
    simp only [Option.map_some']
    rw [hp]
    cases hu : getField update f with
    | some w => simp [hu]
    | none => simp [hu]
  | none =>
    have hitemf : getField item f = none := by
      unfold getField
      rw [hitem]
      rfl
    have hfilter :
        getField (update.filter (fun p => (getField item p.1).isNone)) f
          = getField update f := by
      apply getField_filter
      intro x hx
      have hx1 : x.1 = f := by simpa using hx
      rw [hx1, hitemf]
      rfl
    rw [hfilter, hitemf, Option.or_none, Option.map_none', Option.none_or]

/-- A record that contains a field is a nonempty dict. -/
theorem isEmpty_eq_false_of_hasField {r : Record} {key : String}
    (h : hasField r key = true) : r.isEmpty = false := by
  cases r with
  | nil => simp [hasField, getField] at h
  | cons p t => rfl

/-- A matching record found by `findByKey` shares the `key` value of the
probe record. -/
theorem getField_key_of_findByKey {pool : List Record} {key : String}
    {r u : Record} (h : findByKey pool key r = some u) :
    getField u key = getField r key := by
  unfold findByKey at h
  have := List.find?_some h
  exact eq_of_beq this

/-- A record found by `findByKey` belongs to the pool. -/
theorem mem_of_findByKey {pool : List Record} {key : String} {r u : Record}
    (h : findByKey pool key r = some u) : u ∈ pool := by
  unfold findByKey at h
  exact List.mem_of_find?_eq_some h

/-- `mergeItem` does not disturb the key field of the item. -/
theorem getField_mergeItem_key (updates : List Record) (key : String)
    (item : Record) :
    getField (mergeItem updates key item) key = getField item key := by
  unfold mergeItem
  cases h : findByKey updates key item with
  | some u =>
    have hk := getField_key_of_findByKey h
    by_cases he : u.isEmpty
    · simp [he]
    · simp only [he, if_neg, Bool.false_eq_true, not_false_iff, if_false]
      rw [getField_dictUpdate, hk, Option.or_self]
  | none => rfl

/-- When every record of `updates` has the key, `mergeItem` overlays the
item with the first record of `updates` found for its key. -/
theorem mergeItem_eq_dictUpdate {updates : List Record} {key : String}
    {item u : Record}
    (hupdates : ∀ r ∈ updates, hasField r key = true)
    (h : findByKey updates key item = some u) :
    mergeItem updates key item = dictUpdate item u := by
  unfold mergeItem
  rw [h]
  have hne := isEmpty_eq_false_of_hasField (hupdates u (mem_of_findByKey h))
  simp [hne]

/-- `mergeItem` leaves an unmatched item unchanged. -/
theorem mergeItem_eq_self {updates : List Record} {key : String} {item : Record}
    (h : findByKey updates key item = none) :
    mergeItem updates key item = item := by
  unfold mergeItem
  rw [h]

/-- When every record of `items` has the key, the appended tail of the merge
is exactly the records of `updates` whose key matches no record of
`items`. -/
theorem newRecords_eq_filter {items updates : List Record} {key : String}
    (hitems : ∀ r ∈ items, hasField r key = true) :
    newRecords items updates key
      = updates.filter (fun u => (findByKey items key u).isNone) := by
  unfold newRecords
  apply List.filter_congr
  intro u _
  cases h : findByKey items key u with
  | some r =>
    have hne := isEmpty_eq_false_of_hasField (hitems r (mem_of_findByKey h))
    simp [pyTruthyDict, hne]
  | none => simp [pyTruthyDict]

/-- C8: for every collection `items` and every `key`,
`merge_lists(items, [], key)` is `items` itself: the same records, in the
same order. -/
theorem merge_lists_empty_updates (items : List Record) (key : String) :
    merge_lists items [] key = items := by
  unfold merge_lists newRecords
  rw [List.filter_nil, List.append_nil]
  rw [List.map_congr_left (fun item _ => @mergeItem_eq_self [] key item rfl)]
  exact List.map_id items

/-- C1: `merge_lists(items, updates, key)`, on records that all contain the
key field, emits one record per `items` record in original order — the
record overlaid with the first `updates` record sharing its key (fields of
the `updates` record win, fields only in the `items` record are preserved)
when one exists, the `items` record unchanged otherwise — and then appends
exactly the `updates` records whose key matches no `items` record, in their
original relative order; no record is dropped. -/
theorem merge_lists_contract (items updates : List Record) (key : String)
    (hitems : ∀ r ∈ items, hasField r key = true)
    (hupdates : ∀ r ∈ updates, hasField r key = true) :
    (merge_lists items updates key).length
        = items.length
          + (updates.filter (fun u => (findByKey items key u).isNone)).length
    ∧ (∀ (i : Nat) (item : Record), items[i]? = some item →
        (∀ u, findByKey updates key item = some u →
          ∀ f, (merge_lists items updates key)[i]?.map (fun r => getField r f)
              = some ((getField u f).or (getField item f)))
        ∧ (findByKey updates key item = none →
          (merge_lists items updates key)[i]? = some item))
    ∧ (∀ (j : Nat), (merge_lists items updates key)[items.length + j]?
        = (updates.filter (fun u => (findByKey items key u).isNone))[j]?) := by
  have htail := @newRecords_eq_filter items updates key hitems
  refine ⟨?_, ?_, ?_⟩
  · unfold merge_lists
    rw [List.length_append, List.length_map, htail]
  · intro i item hi
    have hlen : i < items.length := by
      rcases List.getElem?_eq_some.mp hi with ⟨h, _⟩
      exact h
    have hmap : (merge_lists items updates key)[i]?
        = some (mergeItem updates key item) := by
      unfold merge_lists
      rw [List.getElem?_append_left (by simpa using hlen), List.getElem?_map, hi]
      rfl
    constructor
    · intro u hu f
      rw [hmap]
      rw [mergeItem_eq_dictUpdate hupdates hu]
      simp only [Option.map_some']
      rw [getField_dictUpdate]
    · intro hnone
      rw [hmap, mergeItem_eq_self hnone]
  · intro j
    unfold merge_lists
    rw [List.getElem?_append_right (by simp), htail]
    simp

/-! ### Idempotence of the merge -/

/-- In a list whose image under `f` has no duplicates, searching for the
image of a member finds that member itself. -/
theorem find?_self_of_nodup {α β : Type} [BEq β] [LawfulBEq β] (f : α → β) :
    ∀ (l : List α), (l.map f).Nodup → ∀ a ∈ l,
      l.find? (fun x => f x == f a) = some a := by
  intro l
  induction l with
  | nil =>
    intro _ a ha
    cases ha
  | cons b t ih =>
    intro hnd a ha
    rw [List.map_cons, List.nodup_cons] at hnd
    rcases List.mem_cons.mp ha with hab | hat
    · subst hab
      exact List.find?_cons_of_pos t (by simp)
    · have hne : ¬ ((f b == f a) = true) := by
        intro h
        apply hnd.1
        rw [eq_of_beq h]
        exact List.mem_map_of_mem f hat
      rw [List.find?_cons_of_neg t (by simpa using hne)]
      exact ih hnd.2 a hat

/-- In a dict (no duplicate field names), looking up the field of a member
pair returns that pair's value. -/
theorem getField_self_of_nodup {u : Record} (h : (u.map Prod.fst).Nodup)
    {p : String × Value} (hp : p ∈ u) : getField u p.1 = some p.2 := by
  unfold getField
  rw [find?_self_of_nodup Prod.fst u h p hp]
  rfl

/-- Looking up the field of any member pair succeeds. -/
theorem getField_isSome_of_mem {u : Record} {p : String × Value} (hp : p ∈ u) :
    (getField u p.1).isSome = true := by
  unfold getField
  cases h : u.find? (fun q => q.1 == p.1) with
  | some q => rfl
  | none =>
    rw [List.find?_eq_none] at h
    have := h p hp
    simp at this

/-- Overlaying a dict with itself changes nothing. -/
theorem dictUpdate_self {u : Record} (h : (u.map Prod.fst).Nodup) :
    dictUpdate u u = u := by
  unfold dictUpdate
  have hmap : ∀ p ∈ u, (p.1, (getField u p.1).getD p.2) = id p := by
    intro p hp
    rw [getField_self_of_nodup h hp]
    rfl
  have hfil : u.filter (fun p => (getField u p.1).isNone) = [] := by
    rw [List.filter_eq_nil_iff]
    intro p hp
    rw [getField_self_of_nodup h hp]
    simp
  rw [List.map_congr_left hmap, List.map_id, hfil, List.append_nil]

/-- Overlaying twice with the same dict is the same as overlaying once. -/
theorem dictUpdate_idem {item u : Record} (h : (u.map Prod.fst).Nodup) :
    dictUpdate (dictUpdate item u) u = dictUpdate item u := by
  have hfil : u.filter (fun q => (getField (dictUpdate item u) q.1).isNone)
      = [] := by
    rw [List.filter_eq_nil_iff]
    intro q hq
    rw [getField_dictUpdate]
    have hs := getField_isSome_of_mem hq
    cases hg : getField u q.1 with
    | some w => simp
    | none =>
      rw [hg] at hs
      simp at hs
  have hmap : (dictUpdate item u).map
      (fun p => (p.1, (getField u p.1).getD p.2)) = dictUpdate item u := by
    unfold dictUpdate
    rw [List.map_append, List.map_map]
    congr 1
    · apply List.map_congr_left
      intro p _
      cases hg : getField u p.1 with
      | some w => simp [Function.comp, hg]
      | none => simp [Function.comp, hg]
    · have : ∀ q ∈ u.filter (fun p => (getField item p.1).isNone),
          (q.1, (getField u q.1).getD q.2) = id q := by
        intro q hq
        rw [getField_self_of_nodup h (List.mem_filter.mp hq).1]
        rfl
      rw [List.map_congr_left this, List.map_id]
  calc dictUpdate (dictUpdate item u) u
      = (dictUpdate item u).map (fun p => (p.1, (getField u p.1).getD p.2))
          ++ u.filter (fun q => (getField (dictUpdate item u) q.1).isNone) := rfl
    _ = dictUpdate item u ++ [] := by rw [hmap, hfil]
    _ = dictUpdate item u := List.append_nil _

/-- With pairwise-distinct key values, a record of the pool finds itself. -/
theorem findByKey_self_of_nodup {updates : List Record} {key : String}
    (hkeys : (updates.map (fun r => getField r key)).Nodup)
    {u : Record} (hu : u ∈ updates) :
    findByKey updates key u = some u := by
  unfold findByKey
  exact find?_self_of_nodup (fun r => getField r key) updates hkeys u hu

/-- Every record emitted by `merge_lists` is a nonempty dict when the inputs
all carry the key field. -/
theorem isEmpty_false_of_mem_merge {items updates : List Record} {key : String}
    (hitems : ∀ r ∈ items, hasField r key = true)
    (hupdates : ∀ r ∈ updates, hasField r key = true)
    {r : Record} (hr : r ∈ merge_lists items updates key) :
    r.isEmpty = false := by
  unfold merge_lists at hr
  rcases List.mem_append.mp hr with hmap | hnew
  · rcases List.mem_map.mp hmap with ⟨item, hitem, heq⟩
    subst heq
    have hne := isEmpty_eq_false_of_hasField (hitems item hitem)
    unfold mergeItem
    cases hf : findByKey updates key item with
    | some u =>
      by_cases he : u.isEmpty
      · simpa [he] using hne
      · simp only [he, Bool.false_eq_true, if_false]
        cases item with
        | nil => simp at hne
        | cons a t => rfl
    | none => exact hne
  · exact isEmpty_eq_false_of_hasField
      (hupdates r (List.mem_filter.mp hnew).1)

/-- Probing the output of `merge_lists` for the key of any `updates` record
finds a truthy (nonempty) record. -/
theorem pyTruthy_findByKey_merge {items updates : List Record} {key : String}
    (hitems : ∀ r ∈ items, hasField r key = true)
    (hupdates : ∀ r ∈ updates, hasField r key = true)
    {u : Record} (hu : u ∈ updates) :
    pyTruthyDict (findByKey (merge_lists items updates key) key u) = true := by
  have hsome : ∃ x ∈ merge_lists items updates key,
      (getField x key == getField u key) = true := by
    cases hf : findByKey items key u with
    | some i =>
      refine ⟨mergeItem updates key i, ?_, ?_⟩
      · exact List.mem_append_left _
          (List.mem_map_of_mem _ (mem_of_findByKey hf))
      · rw [getField_mergeItem_key, getField_key_of_findByKey hf]
        simp
    | none =>
      refine ⟨u, List.mem_append_right _ ?_, by simp⟩
      unfold newRecords
      refine List.mem_filter.mpr ⟨hu, ?_⟩
      rw [hf]
      rfl
  obtain ⟨x, hx, hpx⟩ := hsome
  cases hfind : findByKey (merge_lists items updates key) key u with
  | none =>
    unfold findByKey at hfind
    rw [List.find?_eq_none] at hfind
    exact absurd hpx (by simpa using hfind x hx)
  | some r =>
    have hrne := isEmpty_false_of_mem_merge hitems hupdates
      (mem_of_findByKey hfind)
    simp [pyTruthyDict, hrne]

/-- Every record emitted by `merge_lists` is a fixed point of `mergeItem`
against the same `updates`. -/
theorem mergeItem_fixed_of_merge {items updates : List Record} {key : String}
    (hupdates : ∀ r ∈ updates, hasField r key = true)
    (hwf : ∀ r ∈ updates, (r.map Prod.fst).Nodup)
    (hkeys : (updates.map (fun r => getField r key)).Nodup)
    {r : Record} (hr : r ∈ merge_lists items updates key) :
    mergeItem updates key r = r := by
  unfold merge_lists at hr
  rcases List.mem_append.mp hr with hmap | hnew
  · rcases List.mem_map.mp hmap with ⟨item, hitem, heq⟩
    subst heq
    cases hf : findByKey updates key item with
    | none => rw [mergeItem_eq_self hf, mergeItem_eq_self hf]
    | some u =>
      have humem := mem_of_findByKey hf
      rw [mergeItem_eq_dictUpdate hupdates hf]
      have hkey : getField (dictUpdate item u) key = getField item key := by
        rw [getField_dictUpdate, getField_key_of_findByKey hf, Option.or_self]
      have hf2 : findByKey updates key (dictUpdate item u) = some u := by
        unfold findByKey
        simp only [hkey]
        unfold findByKey at hf
        exact hf
      rw [mergeItem_eq_dictUpdate hupdates hf2]
      exact dictUpdate_idem (hwf u humem)
  · have hu : r ∈ updates := (List.mem_filter.mp hnew).1
    rw [mergeItem_eq_dictUpdate hupdates (findByKey_self_of_nodup hkeys hu)]
    exact dictUpdate_self (hwf r hu)

/-- C9: on well-formed records that all carry the key field, with the
`updates` records having pairwise-distinct keys, merging the same `updates`
a second time changes nothing:
`merge_lists(merge_lists(items, updates, key), updates, key)
 = merge_lists(items, updates, key)`. -/
theorem merge_lists_idempotent (items updates : List Record) (key : String)
    (hitems : ∀ r ∈ items, hasField r key = true)
    (hupdates : ∀ r ∈ updates, hasField r key = true)
    (hwf : ∀ r ∈ updates, (r.map Prod.fst).Nodup)
    (hkeys : (updates.map (fun r => getField r key)).Nodup) :
    merge_lists (merge_lists items updates key) updates key
      = merge_lists items updates key := by
  have general : ∀ A : List Record,
      (∀ r ∈ A, mergeItem updates key r = r) →
      (∀ u ∈ updates, pyTruthyDict (findByKey A key u) = true) →
      merge_lists A updates key = A := by
    intro A h1 h2
    unfold merge_lists newRecords
    have hmap : ∀ r ∈ A, mergeItem updates key r = id r := h1
    rw [List.map_congr_left hmap, List.map_id]
    have hfil : updates.filter
        (fun u => !pyTruthyDict (findByKey A key u)) = [] := by
      rw [List.filter_eq_nil_iff]
      intro u hu
      rw [h2 u hu]
      simp
    rw [hfil, List.append_nil]
  exact general (merge_lists items updates key)
    (fun r hr => mergeItem_fixed_of_merge hupdates hwf hkeys hr)
    (fun u hu => pyTruthy_findByKey_merge hitems hupdates hu)

/-! ### The reconciliation engine -/

/-- When identifier resolution succeeds, `runMain` is the describe call
followed by the decision phase. -/
theorem runMain_ok {p : Params} {t : Option String}
    (h : resolveTask p = Except.ok t) (cm : Bool)
    (resp : Except ClientError TaskDef) :
    runMain p cm resp
      = RunResult.mk
          (Call.describe t :: (runWith p cm t (describe_task resp)).calls)
          (runWith p cm t (describe_task resp)).outcome := by
  unfold runMain
  rw [h]

/-- Python `a or b` for an optional caller string against a present fallback
string, spelled as the spec reads it. -/
theorem pyOrStr_eq (a : Option String) (b : String) :
    pyOrStr a (some b) = match a with
      | some s => if s = "" then some b else some s
      | none => some b := by
  unfold pyOrStr pyTruthyStr
  cases a with
  | none => rfl
  | some s =>
    by_cases h : s = ""
    · simp [h]
    · simp [h]

/-- Python `a or b` for a list against a present fallback list, spelled as
the spec reads it. -/
theorem pyOrList_eq (a b : List Record) :
    pyOrList a (some b) = if a = [] then some b else some a := by
  unfold pyOrList
  by_cases h : a = []
  · simp [h]
  · simp [h]

/-- C4: a `present` invocation reports the existing ACTIVE definition
without mutating; otherwise (nothing found, or found non-ACTIVE) it
registers the caller-supplied containers verbatim and the caller-supplied
volumes (`[]` when omitted or null) and reports changed = true — except
that under check mode the register call is skipped while changed = true is
still reported. -/
theorem present_behavior (p : Params) (cm : Bool)
    (resp : Except ClientError TaskDef) (hs : p.state = "present") :
    (∀ e, describe_task resp = some e → e.status = some "ACTIVE" →
      runMain p cm resp
        = RunResult.mk [Call.describe p.family]
            (Outcome.exitJson false (ReportedDef.existing e)))
    ∧ ((describe_task resp = none
          ∨ ∃ e, describe_task resp = some e ∧ e.status ≠ some "ACTIVE") →
        (cm = true →
          runMain p cm resp
            = RunResult.mk [Call.describe p.family]
                (Outcome.exitJson true ReportedDef.noDef))
        ∧ (cm = false →
          runMain p cm resp
            = RunResult.mk
                [Call.describe p.family,
                 Call.register p.family p.containers (some (p.volumes.getD []))]
                (Outcome.exitJson true
                  (ReportedDef.fromRegister p.family p.containers
                    (some (p.volumes.getD [])))))) := by
  have hres : resolveTask p = Except.ok p.family := by
    unfold resolveTask
    rw [hs]
    simp [paramsKeys]
  constructor
  · intro e he hact
    rw [runMain_ok hres]
    unfold runWith
    rw [hs, he]
    simp [hact]
  · intro hne
    have hreg : runWith p cm p.family (describe_task resp)
        = presentRegister p cm := by
      unfold runWith
      rw [hs]
      rcases hne with hnone | ⟨e, he, hact⟩
      · rw [hnone]
        simp
      · rw [he]
        simp [hact]
    constructor
    · intro hcm
      subst hcm
      rw [runMain_ok hres, hreg]
      unfold presentRegister
      simp
    · intro hcm
      subst hcm
      rw [runMain_ok hres, hreg]
      unfold presentRegister
      simp [paramsKeys]

/-- C5: an `absent` invocation is a no-op (changed = false) when nothing is
found or the found definition is already INACTIVE; otherwise it deregisters
using the resolved lookup identifier and reports changed = true — except
that under check mode the deregister call is skipped while changed = true
is still reported. -/
theorem absent_behavior (p : Params) (cm : Bool)
    (resp : Except ClientError TaskDef) (tid : Option String)
    (hs : p.state = "absent") (hok : resolveTask p = Except.ok tid) :
    (describe_task resp = none →
      runMain p cm resp = RunResult.mk [Call.describe tid]
        (Outcome.exitJson false ReportedDef.noDef))
    ∧ (∀ e, describe_task resp = some e →
        (e.status = some "INACTIVE" →
          runMain p cm resp = RunResult.mk [Call.describe tid]
            (Outcome.exitJson false (ReportedDef.existing e)))
        ∧ (e.status ≠ some "INACTIVE" →
          (cm = true →
            runMain p cm resp = RunResult.mk [Call.describe tid]
              (Outcome.exitJson true (ReportedDef.existing e)))
          ∧ (cm = false →
            runMain p cm resp = RunResult.mk
              [Call.describe tid, Call.deregister tid]
              (Outcome.exitJson true (ReportedDef.existing e))))) := by
  refine ⟨?_, ?_⟩
  · intro hnone
    rw [runMain_ok hok]
    unfold runWith
    rw [hs, hnone]
    simp
  · intro e he
    refine ⟨?_, ?_⟩
    · intro hst
      rw [runMain_ok hok]
      unfold runWith
      rw [hs, he]
      simp [hst]
    · intro hst
      refine ⟨?_, ?_⟩ <;> intro hcm <;> subst hcm <;>
        rw [runMain_ok hok] <;> unfold runWith <;> rw [hs, he] <;>
        simp [hst]

/-- C6 counterexample: a dry-run `update` whose lookup finds no existing
definition does NOT fail — the missing-definition test lives inside the
`if not module.check_mode` block, so under check mode the invocation exits
with changed = true and no failure. -/
theorem update_dryrun_counterexample :
    runMain (Params.mk "update" none (some "ghost") none none none) true
        (Except.error (ClientError.mk "ClusterNotFoundException"))
      = RunResult.mk [Call.describe (some "ghost")]
          (Outcome.exitJson true ReportedDef.noDef)
    ∧ ∀ r, runMain (Params.mk "update" none (some "ghost") none none none) true
        (Except.error (ClientError.mk "ClusterNotFoundException"))
      ≠ RunResult.mk r
          (Outcome.failJson
            "No existing task definition to update could be found") := by
  constructor
  · rfl
  · intro r h
    have : Outcome.exitJson true ReportedDef.noDef
        = Outcome.failJson
            "No existing task definition to update could be found" :=
      congrArg RunResult.outcome h
    simp at this

/-- C6 amended: a NON-dry-run `update` invocation whose lookup finds no
existing definition fails with the no-existing-definition message after the
lookup and before any register call; under dry-run the failure is skipped
and changed = true is reported, still with no register call. -/
theorem update_no_existing (p : Params) (resp : Except ClientError TaskDef)
    (tid : Option String) (hs : p.state = "update")
    (hok : resolveTask p = Except.ok tid)
    (hnone : describe_task resp = none) :
    runMain p false resp
      = RunResult.mk [Call.describe tid]
          (Outcome.failJson
            "No existing task definition to update could be found")
    ∧ runMain p true resp
      = RunResult.mk [Call.describe tid]
          (Outcome.exitJson true ReportedDef.noDef) := by
  constructor <;> rw [runMain_ok hok] <;> unfold runWith <;>
    rw [hs, hnone] <;> simp

/-- C2 counterexample: with `family` supplied as the empty string (and an
arn for lookup), the register call receives the EXISTING definition's
family, not the caller-supplied one — `or` tests Python truthiness, not
presence. -/
theorem update_family_counterexample :
    runMain (Params.mk "update" (some "arn:aws:x") (some "") none none none)
        false
        (Except.ok (TaskDef.mk "web" (some "ACTIVE") [[("name", "app")]] []))
      = RunResult.mk
          [Call.describe (some "arn:aws:x"),
           Call.register (some "web") (some [[("name", "app")]]) (some [])]
          (Outcome.exitJson true
            (ReportedDef.fromRegister (some "web") (some [[("name", "app")]])
              (some [])))
    ∧ (Params.mk "update" (some "arn:aws:x") (some "") none none none).family
        = some ""
    ∧ (some "web" : Option String) ≠ some "" := by
  refine ⟨rfl, rfl, by decide⟩

/-- C2 amended: on a non-dry-run `update` that found an existing
definition, the register call receives family = the caller-supplied family
if given AND non-empty, else the existing family; containers = the merged
container list if non-empty, else the existing containers; volumes = the
merged volume list if non-empty, else the existing volumes; the merged list
is the empty sequence when the caller supplied no list (or an empty
one). -/
theorem update_register_args (p : Params) (e : TaskDef)
    (resp : Except ClientError TaskDef) (tid : Option String)
    (hs : p.state = "update") (hok : resolveTask p = Except.ok tid)
    (hsome : describe_task resp = some e) :
    (let mergedContainers : List Record :=
        match p.containers with
        | some cs => if cs.isEmpty then []
            else merge_lists e.containerDefinitions cs "name"
        | none => []
     let mergedVolumes : List Record :=
        match p.volumes with
        | some vs => if vs.isEmpty then [] else merge_lists e.volumes vs "name"
        | none => []
     let fam : Option String :=
        match p.family with
        | some s => if s = "" then some e.family else some s
        | none => some e.family
     let co : Option (List Record) :=
        if mergedContainers = [] then some e.containerDefinitions
        else some mergedContainers
     let vo : Option (List Record) :=
        if mergedVolumes = [] then some e.volumes else some mergedVolumes
     runMain p false resp
       = RunResult.mk [Call.describe tid, Call.register fam co vo]
           (Outcome.exitJson true (ReportedDef.fromRegister fam co vo))) := by
  rw [runMain_ok hok]
  unfold runWith
  rw [hs, hsome]
  simp only [pyOrStr_eq, pyOrList_eq]
  simp

/-- C3 counterexample: an `update` that supplies only volumes against an
existing definition with a non-empty container list passes the EXISTING
containers, unchanged, to the register call — nothing is dropped, because
the empty merged list falls back to the existing list through `or`. -/
theorem update_volumes_only_counterexample :
    runMain (Params.mk "update" none (some "svc") none none
          (some [[("name", "v1")]]))
        false
        (Except.ok (TaskDef.mk "svc" (some "ACTIVE")
          [[("name", "app"), ("image", "x:1")]] []))
      = RunResult.mk
          [Call.describe (some "svc"),
           Call.register (some "svc")
             (some [[("name", "app"), ("image", "x:1")]])
             (some [[("name", "v1")]])]
          (Outcome.exitJson true
            (ReportedDef.fromRegister (some "svc")
              (some [[("name", "app"), ("image", "x:1")]])
              (some [[("name", "v1")]])))
    ∧ (TaskDef.mk "svc" (some "ACTIVE")
          [[("name", "app"), ("image", "x:1")]] []).containerDefinitions
        = [[("name", "app"), ("image", "x:1")]]
    ∧ ([[("name", "app"), ("image", "x:1")]] : List Record) ≠ [] := by
  refine ⟨rfl, rfl, by decide⟩

/-- C3 amended: on a non-dry-run `update` that supplies a volume list but
no container list against a found existing definition with a non-empty
container list, the register call's container argument is exactly the
existing container list (nothing is dropped). -/
theorem update_volumes_only_keeps_containers (p : Params) (e : TaskDef)
    (resp : Except ClientError TaskDef) (tid : Option String)
    (hs : p.state = "update") (hok : resolveTask p = Except.ok tid)
    (hsome : describe_task resp = some e)
    (hc : p.containers = none) (_hv : p.volumes.isSome = true)
    (_hne : e.containerDefinitions ≠ []) :
    ∃ fam vo, runMain p false resp
      = RunResult.mk
          [Call.describe tid,
           Call.register fam (some e.containerDefinitions) vo]
          (Outcome.exitJson true
            (ReportedDef.fromRegister fam (some e.containerDefinitions) vo)) := by
  refine ⟨pyOrStr p.family (some e.family),
    pyOrList (match p.volumes with
      | some vs => if vs.isEmpty then [] else merge_lists e.volumes vs "name"
      | none => []) (some e.volumes), ?_⟩
  rw [runMain_ok hok]
  unfold runWith
  rw [hs, hsome, hc]
  simp [pyOrList]

/-- C7 (code slip): a `present` invocation with neither family nor
containers is NOT rejected before the lookup — `'family' in module.params`
is always true because `AnsibleModule` populates every declared parameter —
so identifier resolution succeeds with the identifier `None` and the
describe call is issued. -/
theorem present_no_family_still_looks_up (cm : Bool)
    (resp : Except ClientError TaskDef) :
    resolveTask (Params.mk "present" none none none none none)
        = Except.ok none
    ∧ (runMain (Params.mk "present" none none none none none) cm resp).calls.head?
        = some (Call.describe none) := by
  have h : resolveTask (Params.mk "present" none none none none none)
      = Except.ok none := rfl
  refine ⟨rfl, ?_⟩
  rw [runMain_ok h]
  rfl

/-- C10: `describe_task` swallows EVERY `ClientError` — whatever its code
(not-found, access-denied, throttling, validation, ...) — into `None`, and
the whole invocation consequently behaves identically for any two client
errors: the run proceeds on the existing-is-absent branch. -/
theorem describe_swallows_client_errors (e eAlt : ClientError) (p : Params)
    (cm : Bool) :
    describe_task (Except.error e) = none
    ∧ runMain p cm (Except.error e) = runMain p cm (Except.error eAlt) := by
  exact ⟨rfl, rfl⟩

/-! ### Witnesses: each hypothesis-bearing claim theorem applied at a
concrete input -/

/-- Witness for the merge contract at a concrete pair of container
lists. -/
theorem merge_lists_contract_witness :
    (∀ r ∈ ([[("name", "app"), ("image", "x:1")], [("name", "side")]] :
        List Record), hasField r "name" = true)
    ∧ (∀ r ∈ ([[("name", "app"), ("image", "x:2")], [("name", "new")]] :
        List Record), hasField r "name" = true)
    ∧ ((merge_lists [[("name", "app"), ("image", "x:1")], [("name", "side")]]
          [[("name", "app"), ("image", "x:2")], [("name", "new")]]
          "name").length
        = ([[("name", "app"), ("image", "x:1")], [("name", "side")]] :
            List Record).length
          + (([[("name", "app"), ("image", "x:2")], [("name", "new")]] :
              List Record).filter (fun u =>
                (findByKey [[("name", "app"), ("image", "x:1")],
                    [("name", "side")]] "name" u).isNone)).length
      ∧ (∀ (i : Nat) (item : Record),
          ([[("name", "app"), ("image", "x:1")], [("name", "side")]] :
            List Record)[i]? = some item →
          (∀ u, findByKey [[("name", "app"), ("image", "x:2")],
              [("name", "new")]] "name" item = some u →
            ∀ f, (merge_lists [[("name", "app"), ("image", "x:1")],
                  [("name", "side")]]
                [[("name", "app"), ("image", "x:2")], [("name", "new")]]
                "name")[i]?.map (fun r => getField r f)
              = some ((getField u f).or (getField item f)))
          ∧ (findByKey [[("name", "app"), ("image", "x:2")],
              [("name", "new")]] "name" item = none →
            (merge_lists [[("name", "app"), ("image", "x:1")],
                [("name", "side")]]
              [[("name", "app"), ("image", "x:2")], [("name", "new")]]
              "name")[i]? = some item))
      ∧ (∀ (j : Nat),
          (merge_lists [[("name", "app"), ("image", "x:1")],
              [("name", "side")]]
            [[("name", "app"), ("image", "x:2")], [("name", "new")]]
            "name")[([[("name", "app"), ("image", "x:1")],
                [("name", "side")]] : List Record).length + j]?
          = (([[("name", "app"), ("image", "x:2")], [("name", "new")]] :
              List Record).filter (fun u =>
                (findByKey [[("name", "app"), ("image", "x:1")],
                    [("name", "side")]] "name" u).isNone))[j]?)) :=
  ⟨by decide, by decide,
    merge_lists_contract
      [[("name", "app"), ("image", "x:1")], [("name", "side")]]
      [[("name", "app"), ("image", "x:2")], [("name", "new")]]
      "name" (by decide) (by decide)⟩

/-- Witness for merge idempotence at a concrete pair of container lists. -/
theorem merge_lists_idempotent_witness :
    (∀ r ∈ ([[("name", "app"), ("image", "x:1")], [("name", "side")]] :
        List Record), hasField r "name" = true)
    ∧ (∀ r ∈ ([[("name", "app"), ("image", "x:2")],
        [("name", "new"), ("cpu", "10")]] : List Record),
        hasField r "name" = true)
    ∧ (∀ r ∈ ([[("name", "app"), ("image", "x:2")],
        [("name", "new"), ("cpu", "10")]] : List Record),
        (r.map Prod.fst).Nodup)
    ∧ (([[("name", "app"), ("image", "x:2")],
        [("name", "new"), ("cpu", "10")]] : List Record).map
          (fun r => getField r "name")).Nodup
    ∧ merge_lists
        (merge_lists [[("name", "app"), ("image", "x:1")], [("name", "side")]]
          [[("name", "app"), ("image", "x:2")],
           [("name", "new"), ("cpu", "10")]] "name")
        [[("name", "app"), ("image", "x:2")],
         [("name", "new"), ("cpu", "10")]] "name"
      = merge_lists [[("name", "app"), ("image", "x:1")], [("name", "side")]]
          [[("name", "app"), ("image", "x:2")],
           [("name", "new"), ("cpu", "10")]] "name" :=
  ⟨by decide, by decide, by decide, by decide,
    merge_lists_idempotent
      [[("name", "app"), ("image", "x:1")], [("name", "side")]]
      [[("name", "app"), ("image", "x:2")], [("name", "new"), ("cpu", "10")]]
      "name" (by decide) (by decide) (by decide) (by decide)⟩

/-- Witness for the `present` decision table at a concrete invocation
(family "svc", one container, lookup missing, no check mode). -/
theorem present_behavior_witness :
    (Params.mk "present" none (some "svc") none
        (some [[("name", "app"), ("image", "x:1")]]) none).state = "present"
    ∧ ((∀ e, describe_task (Except.error (ClientError.mk "Missing")) = some e →
          e.status = some "ACTIVE" →
          runMain (Params.mk "present" none (some "svc") none
              (some [[("name", "app"), ("image", "x:1")]]) none) false
              (Except.error (ClientError.mk "Missing"))
            = RunResult.mk [Call.describe (some "svc")]
                (Outcome.exitJson false (ReportedDef.existing e)))
      ∧ ((describe_task (Except.error (ClientError.mk "Missing")) = none
            ∨ ∃ e, describe_task (Except.error (ClientError.mk "Missing"))
                  = some e
                ∧ e.status ≠ some "ACTIVE") →
          (false = true →
            runMain (Params.mk "present" none (some "svc") none
                (some [[("name", "app"), ("image", "x:1")]]) none) false
                (Except.error (ClientError.mk "Missing"))
              = RunResult.mk [Call.describe (some "svc")]
                  (Outcome.exitJson true ReportedDef.noDef))
          ∧ (false = false →
            runMain (Params.mk "present" none (some "svc") none
                (some [[("name", "app"), ("image", "x:1")]]) none) false
                (Except.error (ClientError.mk "Missing"))
              = RunResult.mk
                  [Call.describe (some "svc"),
                   Call.register (some "svc")
                     (some [[("name", "app"), ("image", "x:1")]]) (some [])]
                  (Outcome.exitJson true
                    (ReportedDef.fromRegister (some "svc")
                      (some [[("name", "app"), ("image", "x:1")]])
                      (some [])))))) :=
  ⟨rfl,
    present_behavior (Params.mk "present" none (some "svc") none
        (some [[("name", "app"), ("image", "x:1")]]) none) false
      (Except.error (ClientError.mk "Missing")) rfl⟩

/-- Witness for the `absent` decision table at a concrete invocation
(arn supplied, lookup finds an INACTIVE definition, no check mode). -/
theorem absent_behavior_witness :
    (Params.mk "absent" (some "arn:svc:3") none none none none).state
        = "absent"
    ∧ resolveTask (Params.mk "absent" (some "arn:svc:3") none none none none)
        = Except.ok (some "arn:svc:3")
    ∧ ((describe_task (Except.ok (TaskDef.mk "svc" (some "INACTIVE") [] []))
          = none →
        runMain (Params.mk "absent" (some "arn:svc:3") none none none none)
            false (Except.ok (TaskDef.mk "svc" (some "INACTIVE") [] []))
          = RunResult.mk [Call.describe (some "arn:svc:3")]
              (Outcome.exitJson false ReportedDef.noDef))
      ∧ (∀ e, describe_task
            (Except.ok (TaskDef.mk "svc" (some "INACTIVE") [] [])) = some e →
          (e.status = some "INACTIVE" →
            runMain (Params.mk "absent" (some "arn:svc:3") none none none none)
                false (Except.ok (TaskDef.mk "svc" (some "INACTIVE") [] []))
              = RunResult.mk [Call.describe (some "arn:svc:3")]
                  (Outcome.exitJson false (ReportedDef.existing e)))
          ∧ (e.status ≠ some "INACTIVE" →
            (false = true →
              runMain (Params.mk "absent" (some "arn:svc:3") none none none
                  none) false
                  (Except.ok (TaskDef.mk "svc" (some "INACTIVE") [] []))
                = RunResult.mk [Call.describe (some "arn:svc:3")]
                    (Outcome.exitJson true (ReportedDef.existing e)))
            ∧ (false = false →
              runMain (Params.mk "absent" (some "arn:svc:3") none none none
                  none) false
                  (Except.ok (TaskDef.mk "svc" (some "INACTIVE") [] []))
                = RunResult.mk
                    [Call.describe (some "arn:svc:3"),
                     Call.deregister (some "arn:svc:3")]
                    (Outcome.exitJson true (ReportedDef.existing e)))))) :=
  ⟨rfl, rfl,
    absent_behavior (Params.mk "absent" (some "arn:svc:3") none none none none)
      false (Except.ok (TaskDef.mk "svc" (some "INACTIVE") [] []))
      (some "arn:svc:3") rfl rfl⟩

/-- Witness for the missing-existing-definition behaviour of `update` at a
concrete invocation (family "ghost", lookup error). -/
theorem update_no_existing_witness :
    (Params.mk "update" none (some "ghost") none none none).state = "update"
    ∧ resolveTask (Params.mk "update" none (some "ghost") none none none)
        = Except.ok (some "ghost")
    ∧ describe_task (Except.error (ClientError.mk "Missing")) = none
    ∧ (runMain (Params.mk "update" none (some "ghost") none none none) false
          (Except.error (ClientError.mk "Missing"))
        = RunResult.mk [Call.describe (some "ghost")]
            (Outcome.failJson
              "No existing task definition to update could be found")
      ∧ runMain (Params.mk "update" none (some "ghost") none none none) true
          (Except.error (ClientError.mk "Missing"))
        = RunResult.mk [Call.describe (some "ghost")]
            (Outcome.exitJson true ReportedDef.noDef)) :=
  ⟨rfl, rfl, rfl,
    update_no_existing (Params.mk "update" none (some "ghost") none none none)
      (Except.error (ClientError.mk "Missing")) (some "ghost") rfl rfl rfl⟩

/-- Witness for the `update` register-argument contract at a concrete
invocation (scenario C of the spec: one container updated, one
preserved). -/
theorem update_register_args_witness :
    (Params.mk "update" none (some "svc2") none
        (some [[("name", "app"), ("image", "x:2")]]) none).state = "update"
    ∧ resolveTask (Params.mk "update" none (some "svc2") none
          (some [[("name", "app"), ("image", "x:2")]]) none)
        = Except.ok (some "svc2")
    ∧ describe_task (Except.ok (TaskDef.mk "svc2" (some "ACTIVE")
          [[("name", "app"), ("image", "x:1")], [("name", "side")]] []))
        = some (TaskDef.mk "svc2" (some "ACTIVE")
            [[("name", "app"), ("image", "x:1")], [("name", "side")]] [])
    ∧ runMain (Params.mk "update" none (some "svc2") none
          (some [[("name", "app"), ("image", "x:2")]]) none) false
          (Except.ok (TaskDef.mk "svc2" (some "ACTIVE")
            [[("name", "app"), ("image", "x:1")], [("name", "side")]] []))
      = RunResult.mk
          [Call.describe (some "svc2"),
           Call.register (some "svc2")
             (some [[("name", "app"), ("image", "x:2")], [("name", "side")]])
             (some [])]
          (Outcome.exitJson true
            (ReportedDef.fromRegister (some "svc2")
              (some [[("name", "app"), ("image", "x:2")], [("name", "side")]])
              (some []))) :=
  ⟨rfl, rfl, rfl,
    update_register_args (Params.mk "update" none (some "svc2") none
        (some [[("name", "app"), ("image", "x:2")]]) none)
      (TaskDef.mk "svc2" (some "ACTIVE")
        [[("name", "app"), ("image", "x:1")], [("name", "side")]] [])
      (Except.ok (TaskDef.mk "svc2" (some "ACTIVE")
        [[("name", "app"), ("image", "x:1")], [("name", "side")]] []))
      (some "svc2") rfl rfl rfl⟩

/-- Witness for the volumes-only update keeping the existing containers, at
a concrete invocation. -/
theorem update_volumes_only_keeps_containers_witness :
    (Params.mk "update" none (some "db") none none
        (some [[("name", "vol2")]])).state = "update"
    ∧ resolveTask (Params.mk "update" none (some "db") none none
          (some [[("name", "vol2")]]))
        = Except.ok (some "db")
    ∧ describe_task (Except.ok (TaskDef.mk "db" (some "ACTIVE")
          [[("name", "pg"), ("image", "p:9")]] []))
        = some (TaskDef.mk "db" (some "ACTIVE")
            [[("name", "pg"), ("image", "p:9")]] [])
    ∧ (Params.mk "update" none (some "db") none none
        (some [[("name", "vol2")]])).containers = none
    ∧ (Params.mk "update" none (some "db") none none
        (some [[("name", "vol2")]])).volumes.isSome = true
    ∧ (TaskDef.mk "db" (some "ACTIVE")
        [[("name", "pg"), ("image", "p:9")]] []).containerDefinitions ≠ []
    ∧ (∃ fam vo,
        runMain (Params.mk "update" none (some "db") none none
            (some [[("name", "vol2")]])) false
            (Except.ok (TaskDef.mk "db" (some "ACTIVE")
              [[("name", "pg"), ("image", "p:9")]] []))
          = RunResult.mk
              [Call.describe (some "db"),
               Call.register fam
                 (some (TaskDef.mk "db" (some "ACTIVE")
                   [[("name", "pg"), ("image", "p:9")]] []).containerDefinitions)
                 vo]
              (Outcome.exitJson true
                (ReportedDef.fromRegister fam
                  (some (TaskDef.mk "db" (some "ACTIVE")
                    [[("name", "pg"), ("image", "p:9")]] []).containerDefinitions)
                  vo))) :=
  ⟨rfl, rfl, rfl, rfl, rfl, by decide,
    update_volumes_only_keeps_containers
      (Params.mk "update" none (some "db") none none
        (some [[("name", "vol2")]]))
      (TaskDef.mk "db" (some "ACTIVE") [[("name", "pg"), ("image", "p:9")]] [])
      (Except.ok (TaskDef.mk "db" (some "ACTIVE")
        [[("name", "pg"), ("image", "p:9")]] []))
      (some "db") rfl rfl rfl rfl rfl (by decide)⟩

end EcsTaskDef
